import Mathlib

/-!
Verification development for the Kokoro TTS results-browsing dashboard
(`app.py`).  The script discovers `*.json` sample files in a folder, groups
them by attempt number parsed from the filename with the regex
`^(.*?)-attempt-(\d+)\.json$`, and renders each group (prompt, voice label,
JSON tree, audio player) through the Streamlit UI toolkit.

Shallow embedding conventions:
* Parsed JSON documents are the inductive `JSON`; Python `None` and JSON
  `null` are the single constructor `JSON.null` (as in Python, where
  `json.load` maps `null` to `None`).  JSON numbers are modelled as `Int`.
* The filesystem and the `json.load`-parser are an oracle `Env`:
  `readJson p` is the combined outcome of `open(p)` + `json.load`,
  `wavExists` / `wavBytes` model `os.path.exists` and reading the wav file,
  and `jsonGlob folder` models `glob.glob(os.path.join(folder, "*.json"))`.
* Every `st.*` call is recorded as a `RenderItem`; a display function
  produces the list of items it emits, in order.  A function that can let a
  Python exception escape returns `Option (List RenderItem)`, `none`
  meaning an unhandled exception.
* The two concrete regexes of the script are embedded as executable
  scanners over `List Char` with the lazy-group semantics of `re.match`.
-/

inductive JSON where
  | null : JSON
  | bool (b : Bool) : JSON
  | num (n : Int) : JSON
  | str (s : String) : JSON
  | arr (elems : List JSON) : JSON
  | obj (fields : List (String × JSON)) : JSON

/-- Python truthiness (`if sample_data:`) of a parsed JSON value:
`None`, `False`, `0`, `""`, `[]` and the empty dict are falsy. -/
def truthy : JSON → Bool
  | JSON.null => false
  | JSON.bool b => b
  | JSON.num n => n != 0
  | JSON.str s => !(s == "")
  | JSON.arr l => !l.isEmpty
  | JSON.obj kvs => !kvs.isEmpty

def isObj : JSON → Bool
  | JSON.obj _ => true
  | _ => false

/-- Python `repr` of a parsed JSON value (string escaping not modelled;
no claim depends on the textual form of nested containers). -/
def pyRepr : JSON → String
  | JSON.null => "None"
  | JSON.bool true => "True"
  | JSON.bool false => "False"
  | JSON.num n => toString n
  | JSON.str s => "\x27" ++ s ++ "\x27"
  | JSON.arr l => "[" ++ String.intercalate ", " (l.attach.map (fun x => pyRepr x.1)) ++ "]"
  | JSON.obj kvs =>
      "\x7b" ++
        String.intercalate ", "
          (kvs.attach.map (fun x => "\x27" ++ x.1.1 ++ "\x27: " ++ pyRepr x.1.2)) ++
      "\x7d"
decreasing_by
  · simp_wf
    have h := List.sizeOf_lt_of_mem x.2
    omega
  · simp_wf
    have h := List.sizeOf_lt_of_mem x.2
    have h2 : sizeOf x.1.2 < sizeOf x.1 := by
      obtain ⟨⟨a, b⟩, hm⟩ := x
      simp
    omega

/-- Python `str()` as used by the f-string `f"**Prompt:** {...}"`. -/
def pyStr : JSON → String
  | JSON.str s => s
  | v => pyRepr v

/-- Outcome of `open(filepath)` followed by `json.load`: either a parsed
value or one of the three failure modes the spec names. -/
inductive ReadOutcome where
  | ok (v : JSON) : ReadOutcome
  | missing (msg : String) : ReadOutcome
  | unreadable (msg : String) : ReadOutcome
  | malformed (msg : String) : ReadOutcome

/-- The filesystem / parser oracle: everything outside the script that its
behaviour depends on. -/
structure Env where
  readJson : String → ReadOutcome
  wavExists : String → Bool
  wavBytes : String → String
  jsonGlob : String → List String

/-- One Streamlit call emitted by the script, in emission order. -/
inductive RenderItem where
  | header (s : String) : RenderItem
  | subheader (s : String) : RenderItem
  | info (s : String) : RenderItem
  | error (s : String) : RenderItem
  | jsonView (v : JSON) : RenderItem
  | audio (bytes : String) (format : String) : RenderItem
  | markdown (s : String) : RenderItem

/-- `load_json(filepath)`: returns the parsed value, or `None` after
emitting one `st.error`, and never propagates the exception.  The first
component is the Python return value (recall `JSON.null` is Python
`None`); the second is the list of emitted items. -/
def load_json (env : Env) (filepath : String) : JSON × List RenderItem :=
  match env.readJson filepath with
  | ReadOutcome.ok v => (v, [])
  | ReadOutcome.missing e =>
      (JSON.null, [RenderItem.error ("Error loading JSON file " ++ filepath ++ ": " ++ e)])
  | ReadOutcome.unreadable e =>
      (JSON.null, [RenderItem.error ("Error loading JSON file " ++ filepath ++ ": " ++ e)])
  | ReadOutcome.malformed e =>
      (JSON.null, [RenderItem.error ("Error loading JSON file " ++ filepath ++ ": " ++ e)])

/-- The metadata half of `display_sample`: `load_json` then
`st.json(sample_data)` if truthy else `st.error(...)`. -/
def metaItems (env : Env) (jsonPath : String) : List RenderItem :=
  (load_json env jsonPath).2 ++
    (if truthy (load_json env jsonPath).1 then [RenderItem.jsonView (load_json env jsonPath).1]
     else [RenderItem.error "Could not load JSON data."])

/-- The audio half of `display_sample`: `os.path.exists` then either
`st.audio(f.read(), format="audio/wav")` or `st.error(...)`. -/
def audioItems (env : Env) (wavPath : String) : List RenderItem :=
  if env.wavExists wavPath then [RenderItem.audio (env.wavBytes wavPath) "audio/wav"]
  else [RenderItem.error ("WAV file not found: " ++ wavPath)]

/-- `display_sample(json_path, wav_path)`. -/
def display_sample (env : Env) (jsonPath wavPath : String) : List RenderItem :=
  metaItems env jsonPath ++ audioItems env wavPath

/-- `os.path.basename` (POSIX): the part after the last `/`. -/
def basename (p : String) : String :=
  String.mk (p.toList.foldl (fun acc c => if c = '/' then [] else acc ++ [c]) [])

/-- Helper for `os.path.splitext`: the root before the last dot, provided
some earlier character of the name is not a dot (Python keeps names such
as `.bashrc` whole). -/
def lastDotSplit (cs : List Char) : Option (List Char) :=
  match List.findIdx? (fun c => c == '.') cs.reverse with
  | none => none
  | some r =>
      let i := cs.length - 1 - r
      let root := cs.take i
      if root.any (fun c => c != '.') then some root else none

/-- `os.path.splitext(filename)[0]`. -/
def stripExt (s : String) : String :=
  match lastDotSplit s.toList with
  | some root => String.mk root
  | none => s

/-- `os.path.join(dir, fn)` for the relative, slash-free file names this
script produces. -/
def joinPath (dir fn : String) : String :=
  if dir = "" then fn
  else if dir.toList.getLast? = some '/' then dir ++ fn
  else dir ++ "/" ++ fn

/-- The literal marker of both regexes. -/
def markerL : List Char := "-attempt-".toList

/-- Tail check of `^(.*?)-attempt-(\d+)\.json$` after the marker: the rest
of the name must be one-or-more digits followed by exactly `.json`. -/
def checkDigitsJson (rest : List Char) : Option (List Char) :=
  let d := rest.take (rest.length - 5)
  let suf := rest.drop (rest.length - 5)
  if suf = ".json".toList ∧ d ≠ [] ∧ d.all Char.isDigit = true then some d else none

/-- Lazy scan of `re.match(r"^(.*?)-attempt-(\d+)\.json$", s)`: the first
group grows one character at a time until the marker plus a valid tail
matches; returns (group 1, group 2). -/
def attemptScan : List Char → List Char → Option (List Char × List Char)
  | [], _ => none
  | c :: rest, acc =>
    if markerL.isPrefixOf (c :: rest) then
      match checkDigitsJson ((c :: rest).drop markerL.length) with
      | some d => some (acc.reverse, d)
      | none => attemptScan rest (c :: acc)
    else attemptScan rest (c :: acc)

/-- The grouping pattern `^(.*?)-attempt-(\d+)\.json$` passed at the call
site, as a match function returning the two capture groups. -/
def matchAttemptPattern (s : String) : Option (String × String) :=
  (attemptScan s.toList []).map (fun p => (String.mk p.1, String.mk p.2))

/-- Lazy scan of `re.match(r"^(.*?)-attempt-", filename)`: group 1 is the
text before the first occurrence of the marker. -/
def voiceScan : List Char → List Char → Option (List Char)
  | [], _ => none
  | c :: rest, acc =>
    if markerL.isPrefixOf (c :: rest) then some acc.reverse
    else voiceScan rest (c :: acc)

/-- Decidable occurrence of the marker in a character list. -/
def hasMarker : List Char → Bool
  | [] => false
  | c :: rest => markerL.isPrefixOf (c :: rest) || hasMarker rest

/-- Voice extraction of the renderer:
`voice_match.group(1) if voice_match else "unknown"`. -/
def voiceOf (filename : String) : String :=
  match voiceScan filename.toList [] with
  | some v => String.mk v
  | none => "unknown"

/-- `groups.setdefault(attempt, []).append(filepath)` on an
insertion-ordered dict modelled as an association list. -/
def setdefaultAppend : List (String × List String) → String → String → List (String × List String)
  | [], k, v => [(k, [v])]
  | (k0, vs) :: rest, k, v =>
      if k0 = k then (k0, vs ++ [v]) :: rest
      else (k0, vs) :: setdefaultAppend rest k v

/-- Dict read `groups[k]`, defaulting to `[]` for absent keys (never hit:
the renderer only reads keys it iterates over). -/
def lookupGroup : List (String × List String) → String → List String
  | [], _ => []
  | (k0, vs) :: rest, k => if k0 = k then vs else lookupGroup rest k

/-- Loop body of `group_by_attempt`: match the base name; on a match,
append under the key `match.group(2)`; otherwise leave the dict alone. -/
def groupStep (m : String → Option (String × String))
    (groups : List (String × List String)) (filepath : String) : List (String × List String) :=
  match m (basename filepath) with
  | some g => setdefaultAppend groups g.2 filepath
  | none => groups

/-- `group_by_attempt(json_files, pattern)`.  The pattern argument is the
abstract match function `filename → Option (group 1, group 2)` standing
for `re.compile(pattern).match`. -/
def group_by_attempt (json_files : List String)
    (m : String → Option (String × String)) : List (String × List String) :=
  json_files.foldl (groupStep m) []

/-- All-ASCII-digits, non-empty: the shape of strings `int()` accepts here
(group 2 of the pattern always has this shape). -/
def isDigitStr (s : String) : Bool :=
  !s.toList.isEmpty && s.toList.all Char.isDigit

/-- Decimal value of a digit string, as `int(x)` computes it. -/
def natOfDigits (s : String) : Nat :=
  s.toList.foldl (fun n c => n * 10 + (c.toNat - 48)) 0

/-- Sort key order of `sorted(groups.keys(), key=lambda x: int(x))`. -/
def leKey (a b : String) : Prop := natOfDigits a ≤ natOfDigits b

instance : DecidableRel leKey := fun a b => Nat.decLe (natOfDigits a) (natOfDigits b)

instance : IsTotal String leKey := ⟨fun a b => Nat.le_total (natOfDigits a) (natOfDigits b)⟩

instance : IsTrans String leKey := ⟨fun _ _ _ hab hbc => Nat.le_trans hab hbc⟩

/-- `sorted(keys, key=lambda x: int(x))`: a stable ascending sort by
integer value, or an exception (`none`) if some key is not an integer
literal.  Stable sorts agree extensionally, so insertion sort models
Python sorting exactly. -/
def sortAttempts (keys : List String) : Option (List String) :=
  if keys.all isDigitStr then some (List.insertionSort leKey keys) else none

/-- Lexicographic code-point comparison of character lists, the order
Python uses on `str`. -/
def charListLe : List Char → List Char → Bool
  | [], _ => true
  | _ :: _, [] => false
  | a :: as, b :: bs =>
      if a.toNat < b.toNat then true
      else if b.toNat < a.toNat then false
      else charListLe as bs

def strLeB (a b : String) : Bool := charListLe a.toList b.toList

/-- `sorted(...)` over path strings (lexicographic, as in Python). -/
def sortStrings (l : List String) : List String :=
  List.insertionSort (fun a b : String => strLeB a b = true) l

/-- `"input_text" in s` for a Python string: substring test. -/
def substrAt : List Char → List Char → Bool
  | pat, [] => pat.isEmpty
  | pat, c :: rest => pat.isPrefixOf (c :: rest) || substrAt pat rest

def hasSubstr (pat s : String) : Bool := substrAt pat.toList s.toList

/-- `"input_text" in l` for a Python list: membership by equality. -/
def isInputTextStr : JSON → Bool
  | JSON.str s => s == "input_text"
  | _ => false

/-- First-match association-list read, standing for the Python dict
produced by `json.load` (which never holds duplicate keys). -/
def lookupField : List (String × JSON) → String → Option JSON
  | [], _ => none
  | kv :: rest, k => if kv.1 = k then some kv.2 else lookupField rest k

def promptPlaceholder : String := "**Prompt:** (no description available)"

/-- The prompt step of the renderer:
`if first_json and "input_text" in first_json: st.markdown(f"**Prompt:** {first_json[\x27input_text\x27]}") else: st.markdown("**Prompt:** (no description available)")`.
`none` models the `TypeError` Python raises when `in` is applied to a
truthy number or boolean, or when a string/list passes the `in` test and
is then indexed with a string. -/
def promptItems (v : JSON) : Option (List RenderItem) :=
  if truthy v then
    match v with
    | JSON.obj kvs =>
        match lookupField kvs "input_text" with
        | some pv => some [RenderItem.markdown ("**Prompt:** " ++ pyStr pv)]
        | none => some [RenderItem.markdown promptPlaceholder]
    | JSON.str s =>
        if hasSubstr "input_text" s then none
        else some [RenderItem.markdown promptPlaceholder]
    | JSON.arr l =>
        if l.any isInputTextStr then none
        else some [RenderItem.markdown promptPlaceholder]
    | _ => none
  else some [RenderItem.markdown promptPlaceholder]

/-- The per-file body of the inner loop of `display_grouped_samples`:
voice markdown, `display_sample`, separator. -/
def renderFile (env : Env) (folder : String) (jsonFile : String) : List RenderItem :=
  [RenderItem.markdown ("**Voice:** " ++ voiceOf (basename jsonFile))] ++
    display_sample env jsonFile (joinPath folder (stripExt (basename jsonFile) ++ ".wav")) ++
    [RenderItem.markdown "---"]

/-- One attempt subsection: subheader, first-file load (with its possible
error), prompt step, every file of the group, trailing spacing marker. -/
def renderAttempt (env : Env) (folder : String) (groups : List (String × List String))
    (a : String) : Option (List RenderItem) :=
  match lookupGroup groups a with
  | [] => none
  | f0 :: fs =>
      match promptItems (load_json env f0).1 with
      | none => none
      | some pr =>
          some ([RenderItem.subheader ("Attempt " ++ a)] ++ (load_json env f0).2 ++ pr ++
            (f0 :: fs).foldr (fun jf acc => renderFile env folder jf ++ acc) [] ++
            [RenderItem.markdown "###"])

/-- `display_grouped_samples(folder, title, regex_pattern)`: header,
discovery (sorted glob), grouping, numeric sort of the attempt keys, one
subsection per attempt.  `none` models an unhandled exception. -/
def display_grouped_samples (env : Env) (folder title : String)
    (m : String → Option (String × String)) : Option (List RenderItem) :=
  if (sortStrings (env.jsonGlob folder)).isEmpty then
    some [RenderItem.header title,
      RenderItem.info ("No JSON files found in the \x27" ++ folder ++ "\x27 folder.")]
  else
    match sortAttempts ((group_by_attempt (sortStrings (env.jsonGlob folder)) m).map Prod.fst) with
    | none => none
    | some attempts =>
        attempts.foldlM
          (fun acc a =>
            (renderAttempt env folder (group_by_attempt (sortStrings (env.jsonGlob folder)) m) a).map
              (fun out => acc ++ out))
          [RenderItem.header title]

/-! ### Lemmas about the grouping dictionary -/

/-- The grouping key the pattern assigns to a path: group 2 of the match
of its base name, when the base name matches at all. -/
def attemptKey (m : String → Option (String × String)) (fp : String) : Option String :=
  (m (basename fp)).map (fun g => g.2)

theorem lookupGroup_setdefaultAppend (g : List (String × List String)) (k v q : String) :
    lookupGroup (setdefaultAppend g k v) q =
      if k = q then lookupGroup g q ++ [v] else lookupGroup g q := by
  induction g with
  | nil =>
      by_cases h : k = q <;> simp [setdefaultAppend, lookupGroup, h]
  | cons hd tl ih =>
      obtain ⟨k0, vs⟩ := hd
      by_cases h0 : k0 = k
      · subst h0
        by_cases h : k0 = q <;> simp [setdefaultAppend, lookupGroup, h]
      · by_cases h : k0 = q
        · have hkq : ¬ k = q := fun hh => h0 (h.trans hh.symm)
          have hqk : ¬ q = k := fun hh => h0 (h.trans hh)
          simp [setdefaultAppend, lookupGroup, h0, h, hkq, hqk]
        · simp [setdefaultAppend, lookupGroup, h0, h, ih]

theorem lookupGroup_foldl_groupStep (m : String → Option (String × String))
    (files : List String) (g : List (String × List String)) (q : String) :
    lookupGroup (files.foldl (groupStep m) g) q =
      lookupGroup g q ++ files.filter (fun fp => attemptKey m fp = some q) := by
  induction files generalizing g with
  | nil => simp
  | cons fp rest ih =>
      simp only [List.foldl_cons, List.filter_cons]
      cases hm : m (basename fp) with
      | none =>
          rw [show groupStep m g fp = g by simp [groupStep, hm]]
          rw [ih]
          simp [attemptKey, hm]
      | some gr =>
          rw [show groupStep m g fp = setdefaultAppend g gr.2 fp by simp [groupStep, hm]]
          rw [ih, lookupGroup_setdefaultAppend]
          by_cases h : gr.2 = q
          · simp [attemptKey, hm, h]
          · simp [attemptKey, hm, h]

theorem keys_setdefaultAppend (g : List (String × List String)) (k v : String) :
    (setdefaultAppend g k v).map Prod.fst =
      if k ∈ g.map Prod.fst then g.map Prod.fst else g.map Prod.fst ++ [k] := by
  induction g with
  | nil => simp [setdefaultAppend]
  | cons hd tl ih =>
      obtain ⟨k0, vs⟩ := hd
      by_cases h0 : k0 = k
      · subst h0
        simp [setdefaultAppend]
      · have hne : ¬ k = k0 := fun hh => h0 hh.symm
        by_cases hmem : k ∈ tl.map Prod.fst <;>
          simp [setdefaultAppend, h0, hne, hmem, ih]

theorem nodup_keys_setdefaultAppend (g : List (String × List String)) (k v : String)
    (h : (g.map Prod.fst).Nodup) : ((setdefaultAppend g k v).map Prod.fst).Nodup := by
  rw [keys_setdefaultAppend]
  by_cases hmem : k ∈ g.map Prod.fst
  · simpa [hmem] using h
  · simp [hmem, List.nodup_append, h]

theorem nodup_keys_foldl_groupStep (m : String → Option (String × String))
    (files : List String) (g : List (String × List String))
    (h : (g.map Prod.fst).Nodup) :
    ((files.foldl (groupStep m) g).map Prod.fst).Nodup := by
  induction files generalizing g with
  | nil => exact h
  | cons fp rest ih =>
      simp only [List.foldl_cons]
      cases hm : m (basename fp) with
      | none =>
          rw [show groupStep m g fp = g by simp [groupStep, hm]]
          exact ih g h
      | some gr =>
          rw [show groupStep m g fp = setdefaultAppend g gr.2 fp by simp [groupStep, hm]]
          exact ih _ (nodup_keys_setdefaultAppend g gr.2 fp h)

theorem nodup_keys_group_by_attempt (json_files : List String)
    (m : String → Option (String × String)) :
    ((group_by_attempt json_files m).map Prod.fst).Nodup :=
  nodup_keys_foldl_groupStep m json_files [] (by simp)

theorem entry_eq_lookupGroup (g : List (String × List String))
    (h : (g.map Prod.fst).Nodup) :
    ∀ e ∈ g, e.2 = lookupGroup g e.1 := by
  induction g with
  | nil => intro e he; cases he
  | cons hd tl ih =>
      obtain ⟨k0, vs⟩ := hd
      intro e he
      rcases List.mem_cons.mp he with he0 | hetl
      · subst he0
        simp [lookupGroup]
      · have hnd : k0 ∉ tl.map Prod.fst ∧ (tl.map Prod.fst).Nodup := by
          rw [List.map_cons] at h
          exact List.nodup_cons.mp h
        have hne : e.1 ≠ k0 := by
          intro hh
          exact hnd.1 (hh ▸ List.mem_map_of_mem Prod.fst hetl)
        have : ¬ k0 = e.1 := fun hh => hne hh.symm
        simp [lookupGroup, this]
        exact ih hnd.2 e hetl

theorem entries_nonempty_setdefaultAppend (g : List (String × List String)) (k v : String)
    (h : ∀ e ∈ g, e.2 ≠ []) : ∀ e ∈ setdefaultAppend g k v, e.2 ≠ [] := by
  induction g with
  | nil =>
      intro e he
      simp [setdefaultAppend] at he
      subst he
      simp
  | cons hd tl ih =>
      obtain ⟨k0, vs⟩ := hd
      intro e he
      by_cases h0 : k0 = k
      · subst h0
        simp [setdefaultAppend] at he
        rcases he with he0 | hetl
        · subst he0; simp
        · exact h e (List.mem_cons_of_mem _ hetl)
      · simp [setdefaultAppend, h0] at he
        rcases he with he0 | hetl
        · subst he0
          exact h (k0, vs) (List.mem_cons_self _ _)
        · exact ih (fun e2 he2 => h e2 (List.mem_cons_of_mem _ he2)) e hetl

theorem entries_nonempty_foldl_groupStep (m : String → Option (String × String))
    (files : List String) (g : List (String × List String))
    (h : ∀ e ∈ g, e.2 ≠ []) :
    ∀ e ∈ files.foldl (groupStep m) g, e.2 ≠ [] := by
  induction files generalizing g with
  | nil => exact h
  | cons fp rest ih =>
      simp only [List.foldl_cons]
      cases hm : m (basename fp) with
      | none =>
          rw [show groupStep m g fp = g by simp [groupStep, hm]]
          exact ih g h
      | some gr =>
          rw [show groupStep m g fp = setdefaultAppend g gr.2 fp by simp [groupStep, hm]]
          exact ih _ (entries_nonempty_setdefaultAppend g gr.2 fp h)

theorem entries_nonempty_group_by_attempt (json_files : List String)
    (m : String → Option (String × String)) :
    ∀ e ∈ group_by_attempt json_files m, e.2 ≠ [] :=
  entries_nonempty_foldl_groupStep m json_files [] (by intro e he; cases he)

/-- C1: for every file list and every two-group pattern, each group of
`group_by_attempt` holds exactly the paths whose base name matches with
that second capture group as key, in input order; non-matching paths are
in no group, silently; the result is a function of the inputs alone. -/
theorem c1_group_partition (json_files : List String)
    (m : String → Option (String × String)) :
    (∀ q, lookupGroup (group_by_attempt json_files m) q =
        json_files.filter (fun fp => attemptKey m fp = some q))
    ∧ (∀ e ∈ group_by_attempt json_files m,
        e.2 = json_files.filter (fun fp => attemptKey m fp = some e.1)) := by
  constructor
  · intro q
    have h := lookupGroup_foldl_groupStep m json_files [] q
    simpa [group_by_attempt, lookupGroup] using h
  · intro e he
    have h1 := entry_eq_lookupGroup (group_by_attempt json_files m)
      (nodup_keys_group_by_attempt json_files m) e he
    rw [h1]
    have h := lookupGroup_foldl_groupStep m json_files [] e.1
    simpa [group_by_attempt, lookupGroup] using h

def c1Files : List String :=
  ["samples/b-attempt-2.json", "samples/bad.json", "samples/a-attempt-2.json"]

theorem c1_group_partition_witness :
    lookupGroup (group_by_attempt c1Files matchAttemptPattern) "2" =
      ["samples/b-attempt-2.json", "samples/a-attempt-2.json"] := by
  rw [(c1_group_partition c1Files matchAttemptPattern).1 "2"]
  rfl

/-! ### The JSON loader and the sample presenter -/

/-- C3: `load_json` returns the exact parsed value with no message when
the file reads and parses; when the file is missing, unreadable or
malformed it emits exactly one error message and returns the absence
marker (Python `None`, i.e. `JSON.null`); being a total function of the
oracle, it never propagates a fault. -/
theorem c3_load_json_contract (env : Env) (p : String) :
    (∀ v, env.readJson p = ReadOutcome.ok v → load_json env p = (v, []))
    ∧ (∀ e, env.readJson p = ReadOutcome.missing e →
        load_json env p =
          (JSON.null, [RenderItem.error ("Error loading JSON file " ++ p ++ ": " ++ e)]))
    ∧ (∀ e, env.readJson p = ReadOutcome.unreadable e →
        load_json env p =
          (JSON.null, [RenderItem.error ("Error loading JSON file " ++ p ++ ": " ++ e)]))
    ∧ (∀ e, env.readJson p = ReadOutcome.malformed e →
        load_json env p =
          (JSON.null, [RenderItem.error ("Error loading JSON file " ++ p ++ ": " ++ e)])) := by
  refine ⟨?_, ?_, ?_, ?_⟩ <;> intro x h <;> simp [load_json, h]

def c3Env : Env := Env.mk
  (fun p => if p = "samples/ok-attempt-1.json" then ReadOutcome.ok (JSON.str "v")
    else ReadOutcome.malformed "Expecting value")
  (fun _ => false) (fun _ => "") (fun _ => [])

theorem c3_load_json_contract_witness :
    load_json c3Env "samples/ok-attempt-1.json" = (JSON.str "v", [])
    ∧ load_json c3Env "samples/broken.json" =
        (JSON.null, [RenderItem.error
          ("Error loading JSON file " ++ "samples/broken.json" ++ ": " ++ "Expecting value")]) :=
  ⟨(c3_load_json_contract c3Env "samples/ok-attempt-1.json").1 (JSON.str "v") rfl,
   (c3_load_json_contract c3Env "samples/broken.json").2.2.2 "Expecting value" rfl⟩

/-- C10: the loader returns `None` (`JSON.null`) both on failure and as
the successful, message-free parse of a `null` document, so the two are
indistinguishable at its interface; every falsy loaded document makes
`display_sample` show the "Could not load JSON data." error instead of
the tree, and makes the prompt step fall back to the placeholder. -/
theorem c10_null_collapse (env : Env) (p wp : String) :
    (env.readJson p = ReadOutcome.ok JSON.null → load_json env p = (JSON.null, []))
    ∧ (∀ e, env.readJson p = ReadOutcome.malformed e → (load_json env p).1 = JSON.null)
    ∧ (∀ v, env.readJson p = ReadOutcome.ok v → truthy v = false →
        display_sample env p wp =
          [RenderItem.error "Could not load JSON data."] ++ audioItems env wp)
    ∧ (∀ v, truthy v = false →
        promptItems v = some [RenderItem.markdown promptPlaceholder])
    ∧ ([JSON.null, JSON.bool false, JSON.num 0, JSON.str "", JSON.obj [], JSON.arr []].all
        (fun v => !truthy v)) = true := by
  refine ⟨?_, ?_, ?_, ?_, rfl⟩
  · intro h
    simp [load_json, h]
  · intro e h
    simp [load_json, h]
  · intro v h hf
    simp [display_sample, metaItems, load_json, h, hf]
  · intro v hf
    simp [promptItems, hf]

def c10Env : Env := Env.mk
  (fun _ => ReadOutcome.ok JSON.null) (fun _ => false) (fun _ => "") (fun _ => [])

theorem c10_null_collapse_witness :
    load_json c10Env "samples/x-attempt-1.json" = (JSON.null, [])
    ∧ display_sample c10Env "samples/x-attempt-1.json" "samples/x-attempt-1.wav" =
        [RenderItem.error "Could not load JSON data."] ++
          audioItems c10Env "samples/x-attempt-1.wav"
    ∧ promptItems JSON.null = some [RenderItem.markdown promptPlaceholder] :=
  ⟨(c10_null_collapse c10Env "samples/x-attempt-1.json" "samples/x-attempt-1.wav").1 rfl,
   (c10_null_collapse c10Env "samples/x-attempt-1.json" "samples/x-attempt-1.wav").2.2.1
     JSON.null rfl rfl,
   (c10_null_collapse c10Env "samples/x-attempt-1.json" "samples/x-attempt-1.wav").2.2.2.1
     JSON.null rfl⟩

def c5Env : Env := Env.mk
  (fun _ => ReadOutcome.ok JSON.null) (fun _ => false) (fun _ => "") (fun _ => [])

/-- C5 counterexample: for a file whose content is the valid JSON document
`null`, loading succeeds (the oracle returns `ok`), yet `display_sample`
shows the load error instead of rendering the tree — refuting "shows an
error message exactly when loading failed". -/
theorem c5_counterexample :
    c5Env.readJson "samples/n-attempt-1.json" = ReadOutcome.ok JSON.null
    ∧ display_sample c5Env "samples/n-attempt-1.json" "samples/n-attempt-1.wav" =
        [RenderItem.error "Could not load JSON data.",
         RenderItem.error ("WAV file not found: " ++ "samples/n-attempt-1.wav")] :=
  ⟨rfl, rfl⟩

/-- C5 amended: `display_sample` renders the parsed document as a tree
whenever loading succeeded with a truthy value, and shows an error
exactly when loading failed or the loaded value is falsy. -/
theorem c5_display_sample_amended (env : Env) (jp wp : String) :
    (∀ v, env.readJson jp = ReadOutcome.ok v → truthy v = true →
        metaItems env jp = [RenderItem.jsonView v])
    ∧ (∀ v, env.readJson jp = ReadOutcome.ok v → truthy v = false →
        metaItems env jp = [RenderItem.error "Could not load JSON data."])
    ∧ (∀ e, env.readJson jp = ReadOutcome.missing e →
        metaItems env jp =
          [RenderItem.error ("Error loading JSON file " ++ jp ++ ": " ++ e),
           RenderItem.error "Could not load JSON data."])
    ∧ (∀ e, env.readJson jp = ReadOutcome.unreadable e →
        metaItems env jp =
          [RenderItem.error ("Error loading JSON file " ++ jp ++ ": " ++ e),
           RenderItem.error "Could not load JSON data."])
    ∧ (∀ e, env.readJson jp = ReadOutcome.malformed e →
        metaItems env jp =
          [RenderItem.error ("Error loading JSON file " ++ jp ++ ": " ++ e),
           RenderItem.error "Could not load JSON data."])
    ∧ display_sample env jp wp = metaItems env jp ++ audioItems env wp := by
  refine ⟨?_, ?_, ?_, ?_, ?_, rfl⟩
  · intro v h hs
    simp [metaItems, load_json, h, hs]
  · intro v h hs
    simp [metaItems, load_json, h, hs]
  · intro e h
    simp [metaItems, load_json, h, truthy]
  · intro e h
    simp [metaItems, load_json, h, truthy]
  · intro e h
    simp [metaItems, load_json, h, truthy]

def c5WitnessEnv : Env := Env.mk
  (fun _ => ReadOutcome.ok (JSON.str "hello")) (fun _ => true) (fun _ => "bytes") (fun _ => [])

theorem c5_display_sample_amended_witness :
    metaItems c5WitnessEnv "samples/s-attempt-1.json" = [RenderItem.jsonView (JSON.str "hello")] :=
  (c5_display_sample_amended c5WitnessEnv "samples/s-attempt-1.json"
    "samples/s-attempt-1.wav").1 (JSON.str "hello") rfl rfl

/-- C6: metadata display and audio playback are independent halves of
`display_sample`: their concatenation is its output, each half reads only
its own part of the oracle, the audio half plays the full bytes exactly
when the wav file exists, and shows the distinct "WAV file not found"
error exactly when it does not. -/
theorem c6_meta_audio_independent (env env2 : Env) (jp wp : String) :
    display_sample env jp wp = metaItems env jp ++ audioItems env wp
    ∧ (env.readJson = env2.readJson → metaItems env jp = metaItems env2 jp)
    ∧ (env.wavExists = env2.wavExists → env.wavBytes = env2.wavBytes →
        audioItems env wp = audioItems env2 wp)
    ∧ (env.wavExists wp = true →
        audioItems env wp = [RenderItem.audio (env.wavBytes wp) "audio/wav"])
    ∧ (env.wavExists wp = false →
        audioItems env wp = [RenderItem.error ("WAV file not found: " ++ wp)]) := by
  refine ⟨rfl, ?_, ?_, ?_, ?_⟩
  · intro h
    simp [metaItems, load_json, h]
  · intro h1 h2
    simp [audioItems, h1, h2]
  · intro h
    simp [audioItems, h]
  · intro h
    simp [audioItems, h]

def c6EnvA : Env := Env.mk
  (fun _ => ReadOutcome.ok (JSON.str "meta")) (fun _ => true) (fun _ => "wavdata") (fun _ => [])

def c6EnvB : Env := Env.mk
  (fun _ => ReadOutcome.ok (JSON.str "meta")) (fun _ => false) (fun _ => "") (fun _ => [])

theorem c6_meta_audio_independent_witness :
    metaItems c6EnvA "samples/a-attempt-1.json" = metaItems c6EnvB "samples/a-attempt-1.json"
    ∧ audioItems c6EnvA "samples/a-attempt-1.wav" =
        [RenderItem.audio (c6EnvA.wavBytes "samples/a-attempt-1.wav") "audio/wav"]
    ∧ audioItems c6EnvB "samples/a-attempt-1.wav" =
        [RenderItem.error ("WAV file not found: " ++ "samples/a-attempt-1.wav")] :=
  ⟨(c6_meta_audio_independent c6EnvA c6EnvB "samples/a-attempt-1.json"
      "samples/a-attempt-1.wav").2.1 rfl,
   (c6_meta_audio_independent c6EnvA c6EnvB "samples/a-attempt-1.json"
      "samples/a-attempt-1.wav").2.2.2.1 rfl,
   (c6_meta_audio_independent c6EnvB c6EnvA "samples/a-attempt-1.json"
      "samples/a-attempt-1.wav").2.2.2.2 rfl⟩

/-! ### Voice extraction -/

theorem voiceScan_none_of_no_marker (cs : List Char) (h : hasMarker cs = false) :
    ∀ acc, voiceScan cs acc = none := by
  induction cs with
  | nil => intro acc; rfl
  | cons c rest ih =>
      intro acc
      simp only [hasMarker, Bool.or_eq_false_iff] at h
      simp only [voiceScan, h.1, if_false]
      exact ih h.2 (c :: acc)

theorem voiceScan_cons_pos (c : Char) (rest acc : List Char)
    (h : markerL <+: c :: rest) : voiceScan (c :: rest) acc = some acc.reverse := by
  simp only [voiceScan]
  rw [if_pos ( List.isPrefixOf_iff_prefix.mpr h)]

theorem voiceScan_cons_neg (c : Char) (rest acc : List Char)
    (h : ¬ markerL <+: c :: rest) : voiceScan (c :: rest) acc = voiceScan rest (c :: acc) := by
  simp only [voiceScan]
  rw [if_neg (fun hb => h ( List.isPrefixOf_iff_prefix.mp hb))]

theorem voiceScan_append_marker (p t : List Char) :
    ∀ acc, voiceScan (p ++ markerL ++ t) acc ≠ none := by
  induction p with
  | nil =>
      intro acc
      have hpre : markerL <+: markerL ++ t := List.prefix_append markerL t
      have hcons : markerL ++ t = '-' :: ("attempt-".toList ++ t) := rfl
      simp only [List.nil_append]
      rw [hcons] at hpre ⊢
      rw [voiceScan_cons_pos _ _ acc hpre]
      simp
  | cons c p2 ih =>
      intro acc
      by_cases h : markerL <+: c :: (p2 ++ markerL ++ t)
      · rw [show (c :: p2) ++ markerL ++ t = c :: (p2 ++ markerL ++ t) by simp]
        rw [voiceScan_cons_pos _ _ acc h]
        simp
      · rw [show (c :: p2) ++ markerL ++ t = c :: (p2 ++ markerL ++ t) by simp]
        rw [voiceScan_cons_neg _ _ acc h]
        exact ih (c :: acc)

theorem voiceScan_some_spec (cs : List Char) :
    ∀ acc v, voiceScan cs acc = some v →
      ∃ p t, cs = p ++ markerL ++ t ∧ v = acc.reverse ++ p ∧
        ∀ q r, cs = q ++ markerL ++ r → p.length ≤ q.length := by
  induction cs with
  | nil => intro acc v h; cases h
  | cons c rest ih =>
      intro acc v hscan
      by_cases h : markerL <+: c :: rest
      · rw [voiceScan_cons_pos c rest acc h] at hscan
        have hscan2 : acc.reverse = v := by simpa using hscan
        obtain ⟨t, ht⟩ := h
        refine ⟨[], t, by simpa using ht.symm, by simpa using hscan2.symm, ?_⟩
        intro q r _
        exact Nat.zero_le q.length
      · rw [voiceScan_cons_neg c rest acc h] at hscan
        obtain ⟨p, t, hsplit, hv, hmin⟩ := ih (c :: acc) v hscan
        refine ⟨c :: p, t, by simp [hsplit], by simp [hv], ?_⟩
        intro q r hqr
        cases q with
        | nil =>
            exfalso
            exact h ⟨r, by simpa using hqr.symm⟩
        | cons c2 q2 =>
            have h2 : rest = q2 ++ markerL ++ r := by
              have := congrArg List.tail hqr
              simpa using this
            simpa using Nat.succ_le_succ (hmin q2 r h2)

/-- C8: the voice label is the text preceding the first occurrence of the
literal marker `-attempt-` in the filename, and `"unknown"` when the
marker is absent; `af_alloy-attempt-1.json` yields `af_alloy`. -/
theorem c8_voice_extraction :
    (∀ s : String, hasMarker s.toList = false → voiceOf s = "unknown")
    ∧ (∀ (s : String) (p t : List Char), s.toList = p ++ markerL ++ t →
        ∃ pp tt, s.toList = pp ++ markerL ++ tt ∧ voiceOf s = String.mk pp ∧
          ∀ q r, s.toList = q ++ markerL ++ r → pp.length ≤ q.length)
    ∧ voiceOf "af_alloy-attempt-1.json" = "af_alloy"
    ∧ voiceOf "badname.json" = "unknown" := by
  refine ⟨?_, ?_, rfl, rfl⟩
  · intro s h
    have h0 : voiceScan s.data [] = none := voiceScan_none_of_no_marker s.toList h []
    simp [voiceOf, h0]
  · intro s p t h
    cases hv : voiceScan s.toList [] with
    | none =>
        exfalso
        exact (h ▸ voiceScan_append_marker p t []) hv
    | some v =>
        obtain ⟨pp, tt, hsplit, hveq, hmin⟩ := voiceScan_some_spec s.toList [] v hv
        refine ⟨pp, tt, hsplit, ?_, hmin⟩
        simp only [List.reverse_nil, List.nil_append] at hveq
        have hv2 : voiceScan s.data [] = some v := hv
        simp [voiceOf, hv2, hveq]

theorem c8_voice_extraction_witness :
    voiceOf "badname.json" = "unknown"
    ∧ ∃ pp tt, "af_alloy-attempt-1.json".toList = pp ++ markerL ++ tt ∧
        voiceOf "af_alloy-attempt-1.json" = String.mk pp ∧
        ∀ q r, "af_alloy-attempt-1.json".toList = q ++ markerL ++ r →
          pp.length ≤ q.length :=
  ⟨c8_voice_extraction.1 "badname.json" rfl,
   c8_voice_extraction.2.1 "af_alloy-attempt-1.json" "af_alloy".toList "1.json".toList rfl⟩

/-! ### Attempt ordering and subsection structure -/

/-- The subsection titles of a render, in emission order. -/
def subheaderTexts (out : List RenderItem) : List String :=
  out.filterMap (fun it =>
    match it with
    | RenderItem.subheader s => some s
    | _ => none)

theorem subheaderTexts_append (a b : List RenderItem) :
    subheaderTexts (a ++ b) = subheaderTexts a ++ subheaderTexts b := by
  simp [subheaderTexts, List.filterMap_append]

theorem subheaderTexts_load_json (env : Env) (p : String) :
    subheaderTexts (load_json env p).2 = [] := by
  cases h : env.readJson p <;> simp [load_json, h, subheaderTexts]

theorem promptItems_shape (v : JSON) (pr : List RenderItem) (h : promptItems v = some pr) :
    ∃ s, pr = [RenderItem.markdown s] := by
  unfold promptItems at h
  split at h
  · split at h
    · split at h
      · exact ⟨_, (Option.some.inj h).symm⟩
      · exact ⟨_, (Option.some.inj h).symm⟩
    · split at h
      · cases h
      · exact ⟨_, (Option.some.inj h).symm⟩
    · split at h
      · cases h
      · exact ⟨_, (Option.some.inj h).symm⟩
    · cases h
  · exact ⟨_, (Option.some.inj h).symm⟩

theorem subheaderTexts_metaItems (env : Env) (p : String) :
    subheaderTexts (metaItems env p) = [] := by
  unfold metaItems
  rw [subheaderTexts_append, subheaderTexts_load_json]
  split <;> simp [subheaderTexts]

theorem subheaderTexts_audioItems (env : Env) (wp : String) :
    subheaderTexts (audioItems env wp) = [] := by
  unfold audioItems
  split <;> simp [subheaderTexts]

theorem subheaderTexts_display_sample (env : Env) (jp wp : String) :
    subheaderTexts (display_sample env jp wp) = [] := by
  unfold display_sample
  rw [subheaderTexts_append, subheaderTexts_metaItems, subheaderTexts_audioItems]
  rfl

theorem subheaderTexts_renderFile (env : Env) (folder jf : String) :
    subheaderTexts (renderFile env folder jf) = [] := by
  unfold renderFile
  rw [subheaderTexts_append, subheaderTexts_append, subheaderTexts_display_sample]
  simp [subheaderTexts]

theorem subheaderTexts_foldr_renderFile (env : Env) (folder : String) (fs : List String) :
    subheaderTexts (fs.foldr (fun jf acc => renderFile env folder jf ++ acc) []) = [] := by
  induction fs with
  | nil => simp [subheaderTexts]
  | cons f rest ih =>
      simp only [List.foldr_cons]
      rw [subheaderTexts_append, subheaderTexts_renderFile, ih]
      rfl

theorem subheaderTexts_renderAttempt (env : Env) (folder : String)
    (groups : List (String × List String)) (a : String) (o : List RenderItem)
    (h : renderAttempt env folder groups a = some o) :
    subheaderTexts o = ["Attempt " ++ a] := by
  unfold renderAttempt at h
  cases hg : lookupGroup groups a with
  | nil => simp only [hg] at h; cases h
  | cons f0 fs =>
      simp only [hg] at h
      cases hp : promptItems (load_json env f0).1 with
      | none => simp only [hp] at h; cases h
      | some pr =>
          simp only [hp] at h
          obtain ⟨s, hs⟩ := promptItems_shape _ pr hp
          have ho := (Option.some.inj h).symm
          subst ho
          rw [subheaderTexts_append, subheaderTexts_append, subheaderTexts_append,
            subheaderTexts_append, subheaderTexts_load_json, subheaderTexts_foldr_renderFile, hs]
          simp [subheaderTexts]

theorem foldlM_renderAttempt_subheaders (env : Env) (folder : String)
    (groups : List (String × List String)) (attempts : List String) :
    ∀ acc out,
      attempts.foldlM
        (fun acc2 a => (renderAttempt env folder groups a).map (fun o => acc2 ++ o)) acc
        = some out →
      subheaderTexts out = subheaderTexts acc ++ attempts.map (fun a => "Attempt " ++ a) := by
  induction attempts with
  | nil =>
      intro acc out h
      have hae : acc = out := Option.some.inj h
      rw [← hae]
      simp
  | cons a rest ih =>
      intro acc out h
      rw [List.foldlM_cons] at h
      cases hra : renderAttempt env folder groups a with
      | none => rw [hra] at h; cases h
      | some o =>
          rw [hra] at h
          have h2 : rest.foldlM
              (fun acc2 a2 => (renderAttempt env folder groups a2).map (fun o2 => acc2 ++ o2))
              (acc ++ o) = some out := by simpa using h
          have h3 := ih (acc ++ o) out h2
          rw [h3, subheaderTexts_append, subheaderTexts_renderAttempt env folder groups a o hra]
          simp

/-- C2: the renderer visits attempts in ascending numeric order: for
digit-string keys the sort succeeds with a permutation of the keys that
is pairwise non-decreasing in integer value; `["2","10","1"]` is visited
as `1, 2, 10` and `"10"` sorts after `"9"`; the subsection titles of a
completed render are exactly the sorted attempts, in that order. -/
theorem c2_attempt_numeric_order :
    (∀ keys : List String, (∀ k ∈ keys, isDigitStr k = true) →
      ∃ l, sortAttempts keys = some l ∧ l.Perm keys ∧ l.Pairwise leKey)
    ∧ sortAttempts ["2", "10", "1"] = some ["1", "2", "10"]
    ∧ sortAttempts ["10", "9"] = some ["9", "10"]
    ∧ (∀ (env : Env) (folder title : String) (m : String → Option (String × String)) out,
        display_grouped_samples env folder title m = some out →
        ∃ l, sortAttempts ((group_by_attempt (sortStrings (env.jsonGlob folder)) m).map Prod.fst)
              = some l ∧ subheaderTexts out = l.map (fun a => "Attempt " ++ a)) := by
  refine ⟨?_, rfl, rfl, ?_⟩
  · intro keys h
    have hall : keys.all isDigitStr = true := List.all_eq_true.mpr (fun k hk => h k hk)
    refine ⟨List.insertionSort leKey keys, by simp [sortAttempts, hall], ?_, ?_⟩
    · exact List.perm_insertionSort leKey keys
    · exact List.sorted_insertionSort leKey keys
  · intro env folder title m out h
    unfold display_grouped_samples at h
    by_cases he : (sortStrings (env.jsonGlob folder)).isEmpty = true
    · rw [if_pos he] at h
      have hout := Option.some.inj h
      have hnil : sortStrings (env.jsonGlob folder) = [] := List.isEmpty_iff.mp he
      refine ⟨[], ?_, ?_⟩
      · rw [hnil]; rfl
      · rw [← hout]
        simp [subheaderTexts]
    · rw [if_neg he] at h
      cases hs : sortAttempts ((group_by_attempt (sortStrings (env.jsonGlob folder)) m).map Prod.fst) with
      | none => rw [hs] at h; cases h
      | some attempts =>
          rw [hs] at h
          refine ⟨attempts, rfl, ?_⟩
          have := foldlM_renderAttempt_subheaders env folder
            (group_by_attempt (sortStrings (env.jsonGlob folder)) m) attempts
            [RenderItem.header title] out h
          simpa [subheaderTexts] using this

def c2Env : Env := Env.mk
  (fun _ => ReadOutcome.missing "No such file or directory")
  (fun _ => false) (fun _ => "") (fun _ => [])

theorem c2_attempt_numeric_order_witness :
    (∃ l, sortAttempts ["2", "10", "1"] = some l ∧ l.Perm ["2", "10", "1"] ∧ l.Pairwise leKey)
    ∧ (∃ l, sortAttempts ((group_by_attempt (sortStrings (c2Env.jsonGlob "samples"))
          matchAttemptPattern).map Prod.fst) = some l ∧
        subheaderTexts [RenderItem.header "Samples",
          RenderItem.info ("No JSON files found in the \x27" ++ "samples" ++ "\x27 folder.")] =
          l.map (fun a => "Attempt " ++ a)) :=
  ⟨c2_attempt_numeric_order.1 ["2", "10", "1"] (by decide),
   c2_attempt_numeric_order.2.2.2 c2Env "samples" "Samples" matchAttemptPattern
     [RenderItem.header "Samples",
      RenderItem.info ("No JSON files found in the \x27" ++ "samples" ++ "\x27 folder.")] rfl⟩

/-! ### Digit keys, render totality, and the prompt step -/

/-- The error messages of a render, in emission order. -/
def errorTexts (out : List RenderItem) : List String :=
  out.filterMap (fun it =>
    match it with
    | RenderItem.error s => some s
    | _ => none)

/-- The markdown blocks of a render, in emission order. -/
def markdownTexts (out : List RenderItem) : List String :=
  out.filterMap (fun it =>
    match it with
    | RenderItem.markdown s => some s
    | _ => none)

theorem checkDigitsJson_spec (rest d : List Char) (h : checkDigitsJson rest = some d) :
    d ≠ [] ∧ d.all Char.isDigit = true := by
  simp only [checkDigitsJson] at h
  by_cases hc : List.drop (rest.length - 5) rest = ".json".toList ∧
      List.take (rest.length - 5) rest ≠ [] ∧
      (List.take (rest.length - 5) rest).all Char.isDigit = true
  · rw [if_pos hc] at h
    cases h
    exact ⟨hc.2.1, hc.2.2⟩
  · rw [if_neg hc] at h
    cases h

theorem attemptScan_digits (cs : List Char) :
    ∀ acc v d, attemptScan cs acc = some (v, d) → d ≠ [] ∧ d.all Char.isDigit = true := by
  induction cs with
  | nil => intro acc v d h; cases h
  | cons c rest ih =>
      intro acc v d h
      simp only [attemptScan] at h
      by_cases hpre : markerL.isPrefixOf (c :: rest) = true
      · rw [if_pos hpre] at h
        cases hc : checkDigitsJson ((c :: rest).drop markerL.length) with
        | some d0 =>
            simp only [hc] at h
            have hd : d0 = d := congrArg Prod.snd (Option.some.inj h)
            exact hd ▸ checkDigitsJson_spec _ d0 hc
        | none =>
            simp only [hc] at h
            exact ih (c :: acc) v d h
      · rw [if_neg hpre] at h
        exact ih (c :: acc) v d h

theorem matchAttemptPattern_digits (s v d : String)
    (h : matchAttemptPattern s = some (v, d)) : isDigitStr d = true := by
  unfold matchAttemptPattern at h
  cases ha : attemptScan s.toList [] with
  | none => rw [ha] at h; cases h
  | some p =>
      rw [ha] at h
      simp only [Option.map_some'] at h
      have hd : String.mk p.2 = d := congrArg Prod.snd (Option.some.inj h)
      obtain ⟨h1, h2⟩ := attemptScan_digits s.toList [] p.1 p.2 (by simpa using ha)
      rw [← hd]
      have htl : (String.mk p.2).toList = p.2 := rfl
      simp [isDigitStr, htl, h2]
      cases hp2 : p.2 with
      | nil => exact absurd hp2 h1
      | cons a l => simp [List.isEmpty]

theorem keys_digits_foldl (files : List String) :
    ∀ g, (∀ k ∈ g.map Prod.fst, isDigitStr k = true) →
      ∀ k ∈ (files.foldl (groupStep matchAttemptPattern) g).map Prod.fst, isDigitStr k = true := by
  induction files with
  | nil => intro g hg; exact hg
  | cons fp rest ih =>
      intro g hg
      simp only [List.foldl_cons]
      cases hm : matchAttemptPattern (basename fp) with
      | none =>
          rw [show groupStep matchAttemptPattern g fp = g by simp [groupStep, hm]]
          exact ih g hg
      | some gr =>
          rw [show groupStep matchAttemptPattern g fp = setdefaultAppend g gr.2 fp by
            simp [groupStep, hm]]
          apply ih
          intro k hk
          rw [keys_setdefaultAppend] at hk
          by_cases hmem : gr.2 ∈ g.map Prod.fst
          · rw [if_pos hmem] at hk
            exact hg k hk
          · rw [if_neg hmem] at hk
            rcases List.mem_append.mp hk with hk1 | hk2
            · exact hg k hk1
            · have hkg : k = gr.2 := by simpa using hk2
              subst hkg
              exact matchAttemptPattern_digits (basename fp) gr.1 gr.2 (by simpa using hm)

theorem keys_digits_group_by_attempt (files : List String) :
    ∀ k ∈ (group_by_attempt files matchAttemptPattern).map Prod.fst, isDigitStr k = true :=
  keys_digits_foldl files [] (by intro k hk; cases hk)

theorem lookupGroup_ne_nil_of_mem_keys (g : List (String × List String))
    (hnd : (g.map Prod.fst).Nodup) (hne : ∀ e ∈ g, e.2 ≠ []) (k : String)
    (hk : k ∈ g.map Prod.fst) : lookupGroup g k ≠ [] := by
  obtain ⟨e, he, hek⟩ := List.mem_map.mp hk
  rw [← hek, ← entry_eq_lookupGroup g hnd e he]
  exact hne e he

theorem promptItems_null :
    promptItems JSON.null = some [RenderItem.markdown promptPlaceholder] := rfl

theorem promptItems_isSome_of_obj (v : JSON) (h : isObj v = true) :
    ∃ pr, promptItems v = some pr := by
  cases v with
  | obj kvs =>
      by_cases ht : truthy (JSON.obj kvs) = true
      · cases hl : lookupField kvs "input_text" with
        | some pv =>
            refine ⟨[RenderItem.markdown ("**Prompt:** " ++ pyStr pv)], ?_⟩
            simp [promptItems, ht, hl]
        | none =>
            refine ⟨[RenderItem.markdown promptPlaceholder], ?_⟩
            simp [promptItems, ht, hl]
      · refine ⟨[RenderItem.markdown promptPlaceholder], ?_⟩
        simp [promptItems, ht]
  | null => cases h
  | bool b => cases h
  | num n => cases h
  | str s => cases h
  | arr l => cases h

theorem renderAttempt_isSome (env : Env) (folder : String)
    (groups : List (String × List String)) (a : String)
    (hobj : ∀ p v, env.readJson p = ReadOutcome.ok v → isObj v = true)
    (hgrp : lookupGroup groups a ≠ []) :
    ∃ o, renderAttempt env folder groups a = some o := by
  cases hg : lookupGroup groups a with
  | nil => exact absurd hg hgrp
  | cons f0 fs =>
      unfold renderAttempt
      simp only [hg]
      cases hr : env.readJson f0 with
      | ok v =>
          have hv : (load_json env f0).1 = v := by simp [load_json, hr]
          obtain ⟨pr, hpr⟩ := promptItems_isSome_of_obj v (hobj f0 v hr)
          rw [hv]
          simp only [hpr]
          exact ⟨_, rfl⟩
      | missing e =>
          have hv : (load_json env f0).1 = JSON.null := by simp [load_json, hr]
          rw [hv]
          simp only [promptItems_null]
          exact ⟨_, rfl⟩
      | unreadable e =>
          have hv : (load_json env f0).1 = JSON.null := by simp [load_json, hr]
          rw [hv]
          simp only [promptItems_null]
          exact ⟨_, rfl⟩
      | malformed e =>
          have hv : (load_json env f0).1 = JSON.null := by simp [load_json, hr]
          rw [hv]
          simp only [promptItems_null]
          exact ⟨_, rfl⟩

theorem foldlM_render_isSome (env : Env) (folder : String)
    (groups : List (String × List String)) (attempts : List String)
    (h : ∀ a ∈ attempts, ∃ o, renderAttempt env folder groups a = some o) :
    ∀ acc, ∃ out,
      attempts.foldlM
        (fun acc2 a => (renderAttempt env folder groups a).map (fun o => acc2 ++ o)) acc
        = some out := by
  induction attempts with
  | nil => intro acc; exact ⟨acc, rfl⟩
  | cons a rest ih =>
      intro acc
      obtain ⟨o, ho⟩ := h a (List.mem_cons_self a rest)
      obtain ⟨out, hout⟩ := ih (fun a2 ha2 => h a2 (List.mem_cons_of_mem a ha2)) (acc ++ o)
      refine ⟨out, ?_⟩
      rw [List.foldlM_cons, ho]
      simpa using hout

def c4Env : Env := Env.mk
  (fun p => if p = "samples/v-attempt-1.json" then ReadOutcome.ok (JSON.num 5)
    else ReadOutcome.missing "No such file or directory")
  (fun _ => false) (fun _ => "") (fun f => if f = "samples" then ["samples/v-attempt-1.json"] else [])

/-- C4 counterexample: a directory holding one well-named file whose valid
JSON content is the number `5` makes the render pass raise an unhandled
`TypeError` (`"input_text" in 5`): the full pass does not run to
completion, refuting robustness for "JSON documents of any shape". -/
theorem c4_counterexample :
    c4Env.readJson "samples/v-attempt-1.json" = ReadOutcome.ok (JSON.num 5)
    ∧ display_grouped_samples c4Env "samples" "Samples" matchAttemptPattern = none :=
  ⟨rfl, rfl⟩

/-- C4 amended: for every directory state in which every successfully
parsed JSON document is an object (the shape §6 of the spec prescribes) —
with any mix of missing or unreadable files, malformed JSON, missing
audio and non-matching filenames — the full discovery-group-render pass
completes without an unhandled exception. -/
theorem c4_render_total_amended (env : Env) (folder title : String)
    (hobj : ∀ p v, env.readJson p = ReadOutcome.ok v → isObj v = true) :
    ∃ out, display_grouped_samples env folder title matchAttemptPattern = some out := by
  unfold display_grouped_samples
  by_cases he : (sortStrings (env.jsonGlob folder)).isEmpty = true
  · rw [if_pos he]
    exact ⟨_, rfl⟩
  · rw [if_neg he]
    have hkeys := keys_digits_group_by_attempt (sortStrings (env.jsonGlob folder))
    have hall : ((group_by_attempt (sortStrings (env.jsonGlob folder))
        matchAttemptPattern).map Prod.fst).all isDigitStr = true :=
      List.all_eq_true.mpr hkeys
    have hsort : sortAttempts ((group_by_attempt (sortStrings (env.jsonGlob folder))
        matchAttemptPattern).map Prod.fst) =
        some (List.insertionSort leKey ((group_by_attempt (sortStrings (env.jsonGlob folder))
          matchAttemptPattern).map Prod.fst)) := by
      simp [sortAttempts, hall]
    simp only [hsort]
    apply foldlM_render_isSome
    intro a ha
    have hmem : a ∈ (group_by_attempt (sortStrings (env.jsonGlob folder))
        matchAttemptPattern).map Prod.fst :=
      (List.Perm.mem_iff (List.perm_insertionSort leKey _)).mp ha
    have hne := lookupGroup_ne_nil_of_mem_keys _
      (nodup_keys_group_by_attempt (sortStrings (env.jsonGlob folder)) matchAttemptPattern)
      (entries_nonempty_group_by_attempt (sortStrings (env.jsonGlob folder)) matchAttemptPattern)
      a hmem
    exact renderAttempt_isSome env folder _ a hobj hne

def c4WitnessEnv : Env := Env.mk
  (fun _ => ReadOutcome.ok (JSON.obj [("input_text", JSON.str "hi")]))
  (fun _ => true) (fun _ => "RIFFdata")
  (fun f => if f = "samples" then ["samples/x-attempt-3.json"] else [])

theorem c4_render_total_amended_witness :
    ∃ out, display_grouped_samples c4WitnessEnv "samples" "Samples" matchAttemptPattern
      = some out :=
  c4_render_total_amended c4WitnessEnv "samples" "Samples"
    (fun _ v h => by cases h; rfl)

def c7Env : Env := Env.mk
  (fun p => if p = "samples/w-attempt-2.json" then ReadOutcome.ok (JSON.num 7)
    else ReadOutcome.missing "No such file or directory")
  (fun _ => false) (fun _ => "") (fun f => if f = "samples" then ["samples/w-attempt-2.json"] else [])

/-- C7 counterexample: for a non-empty group whose first file parses to
the truthy non-object document `7` (which carries no `input_text` field),
the renderer shows neither the field value nor the placeholder: the
prompt step raises an unhandled `TypeError` and the render aborts —
refuting "otherwise a fixed placeholder is displayed". -/
theorem c7_counterexample :
    c7Env.readJson "samples/w-attempt-2.json" = ReadOutcome.ok (JSON.num 7)
    ∧ display_grouped_samples c7Env "samples" "Samples" matchAttemptPattern = none :=
  ⟨rfl, rfl⟩

def c7ScenarioEnv : Env := Env.mk
  (fun p =>
    if p = "samples/af_alloy-attempt-1.json" then
      ReadOutcome.ok (JSON.obj [("input_text", JSON.str "Hello world")])
    else if p = "samples/af_bright-attempt-1.json" then
      ReadOutcome.ok (JSON.obj [("input_text", JSON.str "Hello world")])
    else ReadOutcome.missing "No such file or directory")
  (fun _ => true) (fun _ => "RIFFdata")
  (fun f => if f = "samples" then
      ["samples/af_alloy-attempt-1.json", "samples/af_bright-attempt-1.json"] else [])

/-- C7 amended: the prompt of a group comes from the first file's loaded
document: a truthy object carrying `input_text` has the field's value
displayed as the shared prompt; an object without the field, any falsy
document, or a failed load yields the fixed placeholder; a truthy
non-object document instead raises an unhandled `TypeError`.  In the
spec's two-voice scenario, one "Attempt 1" subsection is rendered with
prompt "Hello world" and voice entries `af_alloy` and `af_bright`. -/
theorem c7_prompt_amended :
    (∀ kvs pv, truthy (JSON.obj kvs) = true → lookupField kvs "input_text" = some pv →
        promptItems (JSON.obj kvs) = some [RenderItem.markdown ("**Prompt:** " ++ pyStr pv)])
    ∧ (∀ kvs, lookupField kvs "input_text" = none →
        promptItems (JSON.obj kvs) = some [RenderItem.markdown promptPlaceholder])
    ∧ (∀ v, truthy v = false → promptItems v = some [RenderItem.markdown promptPlaceholder])
    ∧ (display_grouped_samples c7ScenarioEnv "samples" "Samples" matchAttemptPattern).map
        subheaderTexts = some ["Attempt 1"]
    ∧ (display_grouped_samples c7ScenarioEnv "samples" "Samples" matchAttemptPattern).map
        markdownTexts = some
          ["**Prompt:** Hello world", "**Voice:** af_alloy", "---",
           "**Voice:** af_bright", "---", "###"] := by
  refine ⟨?_, ?_, ?_, ?_, ?_⟩
  · intro kvs pv ht hl
    simp [promptItems, ht, hl]
  · intro kvs hl
    by_cases ht : truthy (JSON.obj kvs) = true
    · simp [promptItems, ht, hl]
    · simp [promptItems, ht]
  · intro v hf
    simp [promptItems, hf]
  · rfl
  · rfl

theorem c7_prompt_amended_witness :
    promptItems (JSON.obj [("input_text", JSON.str "Hello world")]) =
      some [RenderItem.markdown ("**Prompt:** " ++ pyStr (JSON.str "Hello world"))] :=
  c7_prompt_amended.1 [("input_text", JSON.str "Hello world")] (JSON.str "Hello world")
    rfl rfl

def c9Env : Env := Env.mk
  (fun _ => ReadOutcome.missing "No such file or directory")
  (fun _ => false) (fun _ => "")
  (fun f => if f = "samples" then ["samples/badname.json"] else [])

/-- C9 counterexample: a directory holding only `badname.json` (no
`-attempt-` marker) renders to just the section header: no error item of
any kind is emitted for the non-matching file, refuting "a visible error
is surfaced for that file". -/
theorem c9_counterexample :
    display_grouped_samples c9Env "samples" "Samples" matchAttemptPattern =
      some [RenderItem.header "Samples"]
    ∧ errorTexts [RenderItem.header "Samples"] = [] :=
  ⟨rfl, rfl⟩

def c9AmendedEnv : Env := Env.mk
  (fun _ => ReadOutcome.missing "No such file or directory")
  (fun _ => false) (fun _ => "")
  (fun f => if f = "samples" then ["samples/noisy_file.json"] else [])

/-- C9 amended: a JSON file whose name does not match the pattern is
silently excluded: it lands in no group, no error is surfaced for it, and
the render still completes (the program does not crash). -/
theorem c9_silent_exclusion :
    (∀ (json_files : List String) (m : String → Option (String × String)) (fp : String),
        m (basename fp) = none →
        ∀ e ∈ group_by_attempt json_files m, fp ∉ e.2)
    ∧ display_grouped_samples c9AmendedEnv "samples" "Samples" matchAttemptPattern =
        some [RenderItem.header "Samples"] := by
  refine ⟨?_, rfl⟩
  intro json_files m fp hm e he hmem
  have hlook := entry_eq_lookupGroup (group_by_attempt json_files m)
    (nodup_keys_group_by_attempt json_files m) e he
  have hfil : lookupGroup (group_by_attempt json_files m) e.1 =
      json_files.filter (fun fp2 => attemptKey m fp2 = some e.1) := by
    simpa [group_by_attempt, lookupGroup] using
      lookupGroup_foldl_groupStep m json_files [] e.1
  rw [hlook, hfil] at hmem
  have hkey : attemptKey m fp = some e.1 := by
    have := List.mem_filter.mp hmem
    exact of_decide_eq_true this.2
  rw [attemptKey, hm] at hkey
  cases hkey

theorem c9_silent_exclusion_witness :
    ∀ e ∈ group_by_attempt ["samples/badfile.json"] matchAttemptPattern,
      "samples/badfile.json" ∉ e.2 :=
  c9_silent_exclusion.1 ["samples/badfile.json"] matchAttemptPattern
    "samples/badfile.json" rfl
